import Mathlib

/-!
Verification of the Simple-Document-Sign repository.

This file gives a shallow embedding, in Lean 4, of the state and the
operations of the application (App component, DocumentViewer component,
FileUpload component), and settles the frozen claims about them.
Numeric values of the source (JS numbers) are modelled as rationals `ℚ`;
fallible operations return `Option`/`Except`; the asynchronous render
pipeline is modelled as an explicit step relation over interleaved
invocations of `renderPage`.
-/

namespace DocSign

/-! ## Constants (DocumentViewer) -/

/-- Source: `const MIN_ZOOM = 0.5`. -/
def MIN_ZOOM : ℚ := 0.5

/-- Source: `const MAX_ZOOM = 3.0`. -/
def MAX_ZOOM : ℚ := 3.0

/-- Source: `const DEFAULT_ZOOM = 1.0`. -/
def DEFAULT_ZOOM : ℚ := 1.0

/-- Source: `const MIN_SIG_SIZE = 50`. -/
def MIN_SIG_SIZE : ℚ := 50

/-- Source: `const MAX_SIG_SIZE = 300`. -/
def MAX_SIG_SIZE : ℚ := 300

/-! ## Export transform A: the PDF branch of `handleDownload` (App, lines 59-76)

The draw is recorded as the argument record of `targetPage.drawImage`. -/

/-- Argument record of the `targetPage.drawImage` call in the PDF branch of
`handleDownload`: position `x`,`y`, size `width`,`height` in page units
(bottom-left origin), and the rotation in degrees handed to `degrees(...)`. -/
structure PdfDrawOp where
  x : ℚ
  y : ℚ
  width : ℚ
  height : ℚ
  rotateDeg : ℚ
deriving DecidableEq

/-- PDF-branch placement computation of `handleDownload`:
`sigWidth = signatureSize`,
`sigHeight = (pngImage.height / pngImage.width) * sigWidth`,
`x = signaturePosition.x * pageWidth - sigWidth / 2`,
`y = (1 - signaturePosition.y) * pageHeight - sigHeight / 2`,
and `rotate: degrees(signatureRotation)`. -/
def pdfSignatureDraw (pageWidth pageHeight imgWidth imgHeight signatureSize : ℚ)
    (signaturePosition : ℚ × ℚ) (signatureRotation : ℚ) : PdfDrawOp :=
  let sigWidth := signatureSize
  let sigHeight := (imgHeight / imgWidth) * sigWidth
  let x := signaturePosition.1 * pageWidth - sigWidth / 2
  let y := (1 - signaturePosition.2) * pageHeight - sigHeight / 2
  { x := x, y := y, width := sigWidth, height := sigHeight,
    rotateDeg := signatureRotation }

/-! ## Export transform B: the raster branch of `handleDownload` (App, lines 88-127) -/

/-- Record of the raster-branch drawing of the signature: the fixed canvas
size (`canvas.width = 800`, `canvas.height = 600`), the scaled signature
size, the `ctx.translate` target (the signature center), the `ctx.rotate`
angle in degrees (the source converts it to radians with `* Math.PI / 180`
before calling `ctx.rotate`), and the `ctx.drawImage` offsets. -/
structure RasterDraw where
  canvasWidth : ℚ
  canvasHeight : ℚ
  sigWidth : ℚ
  sigHeight : ℚ
  translateX : ℚ
  translateY : ℚ
  rotateDeg : ℚ
  drawX : ℚ
  drawY : ℚ
deriving DecidableEq

/-- Raster-branch placement computation of `handleDownload`:
`sigWidth = signatureSize * 2` (scale for the larger canvas),
`sigHeight = (img.height / img.width) * sigWidth`,
`sigCenterX = signaturePosition.x * canvas.width`,
`sigCenterY = signaturePosition.y * canvas.height`, then
`ctx.translate(sigCenterX, sigCenterY); ctx.rotate(deg → rad);
ctx.drawImage(img, -sigWidth / 2, -sigHeight / 2, sigWidth, sigHeight)`. -/
def rasterSignatureDraw (imgWidth imgHeight signatureSize : ℚ)
    (signaturePosition : ℚ × ℚ) (signatureRotation : ℚ) : RasterDraw :=
  let canvasWidth : ℚ := 800
  let canvasHeight : ℚ := 600
  let sigWidth := signatureSize * 2
  let sigHeight := (imgHeight / imgWidth) * sigWidth
  let sigCenterX := signaturePosition.1 * canvasWidth
  let sigCenterY := signaturePosition.2 * canvasHeight
  { canvasWidth := canvasWidth, canvasHeight := canvasHeight,
    sigWidth := sigWidth, sigHeight := sigHeight,
    translateX := sigCenterX, translateY := sigCenterY,
    rotateDeg := signatureRotation,
    drawX := -sigWidth / 2, drawY := -sigHeight / 2 }

/-- C1: the PDF export draws the signature with width `sigW = signatureSize`,
height `sigH = sigW * (imageHeight / imageWidth)`, at
`x = position.x * pageWidth - sigW / 2` and
`y = (1 - position.y) * pageHeight - sigH / 2` (vertical flip from
top-left-origin normalized space to bottom-left-origin page space), the
rotation degrees passed through unchanged; in particular a placement at
`position = (1/2, 0)` maps to page-space `y = pageHeight - sigH / 2`. -/
theorem pdf_export_transform_correct
    (pageWidth pageHeight imgWidth imgHeight signatureSize : ℚ)
    (pos : ℚ × ℚ) (rot : ℚ) :
    (pdfSignatureDraw pageWidth pageHeight imgWidth imgHeight signatureSize pos rot).width
        = signatureSize ∧
    (pdfSignatureDraw pageWidth pageHeight imgWidth imgHeight signatureSize pos rot).height
        = signatureSize * (imgHeight / imgWidth) ∧
    (pdfSignatureDraw pageWidth pageHeight imgWidth imgHeight signatureSize pos rot).x
        = pos.1 * pageWidth
          - (pdfSignatureDraw pageWidth pageHeight imgWidth imgHeight signatureSize pos rot).width / 2 ∧
    (pdfSignatureDraw pageWidth pageHeight imgWidth imgHeight signatureSize pos rot).y
        = (1 - pos.2) * pageHeight
          - (pdfSignatureDraw pageWidth pageHeight imgWidth imgHeight signatureSize pos rot).height / 2 ∧
    (pdfSignatureDraw pageWidth pageHeight imgWidth imgHeight signatureSize pos rot).rotateDeg
        = rot ∧
    (pdfSignatureDraw pageWidth pageHeight imgWidth imgHeight signatureSize (1/2, 0) rot).y
        = pageHeight
          - (pdfSignatureDraw pageWidth pageHeight imgWidth imgHeight signatureSize (1/2, 0) rot).height / 2 := by
  refine ⟨rfl, mul_comm _ _, rfl, rfl, rfl, ?_⟩
  simp [pdfSignatureDraw]

/-- C4: the raster export draws on the fixed 800×600 canvas with
`sigW = signatureSize * 2` (raster scale factor 2), translates to the center
`(position.x * canvasWidth, position.y * canvasHeight)` (no vertical flip),
rotates by the on-screen clockwise degrees, and draws at
`(-sigW/2, -sigH/2)` (rotate-about-center); in particular a placement at
`(0.85, 0.8)` yields a mark centered at `(0.85 * 800, 0.8 * 600)`. -/
theorem raster_export_transform_correct
    (imgWidth imgHeight signatureSize : ℚ) (pos : ℚ × ℚ) (rot : ℚ) :
    (rasterSignatureDraw imgWidth imgHeight signatureSize pos rot).canvasWidth = 800 ∧
    (rasterSignatureDraw imgWidth imgHeight signatureSize pos rot).canvasHeight = 600 ∧
    (rasterSignatureDraw imgWidth imgHeight signatureSize pos rot).sigWidth
        = signatureSize * 2 ∧
    (rasterSignatureDraw imgWidth imgHeight signatureSize pos rot).translateX
        = pos.1 * (rasterSignatureDraw imgWidth imgHeight signatureSize pos rot).canvasWidth ∧
    (rasterSignatureDraw imgWidth imgHeight signatureSize pos rot).translateY
        = pos.2 * (rasterSignatureDraw imgWidth imgHeight signatureSize pos rot).canvasHeight ∧
    (rasterSignatureDraw imgWidth imgHeight signatureSize pos rot).rotateDeg = rot ∧
    (rasterSignatureDraw imgWidth imgHeight signatureSize pos rot).drawX
        = -(rasterSignatureDraw imgWidth imgHeight signatureSize pos rot).sigWidth / 2 ∧
    (rasterSignatureDraw imgWidth imgHeight signatureSize pos rot).drawY
        = -(rasterSignatureDraw imgWidth imgHeight signatureSize pos rot).sigHeight / 2 ∧
    (rasterSignatureDraw imgWidth imgHeight signatureSize (0.85, 0.8) rot).translateX
        = 0.85 * 800 ∧
    (rasterSignatureDraw imgWidth imgHeight signatureSize (0.85, 0.8) rot).translateY
        = 0.8 * 600 :=
  ⟨rfl, rfl, rfl, rfl, rfl, rfl, rfl, rfl, rfl, rfl⟩

/-! ## Placement model (App state + SignaturePreview handlers) -/

/-- Mutable signature placement held in the App component:
`signaturePosition` (normalized, per `useState({ x: 0.85, y: 0.8 })`) and
`signatureSize` (`useState(150)`). -/
structure SignaturePlacement where
  posX : ℚ
  posY : ℚ
  sizePx : ℚ
deriving DecidableEq

/-- Initial placement from the App `useState` defaults. -/
def initialPlacement : SignaturePlacement :=
  { posX := 0.85, posY := 0.8, sizePx := 150 }

/-- Placement set-operations of SignaturePreview: a drag mouse-move (with the
raw mouse position and the bounding rectangle of the container) and the two
size buttons. -/
inductive PlacementOp
  | dragTo (clientX clientY rectLeft rectTop rectWidth rectHeight : ℚ)
  | increaseSize
  | decreaseSize
deriving DecidableEq

/-- One placement set-operation, mirroring the SignaturePreview handlers:
`handleDragMouseDown`'s mouse-move computes
`x = clientX - rect.left`, `y = clientY - rect.top`,
`relativeX = Math.max(0, Math.min(1, x / rect.width))`,
`relativeY = Math.max(0, Math.min(1, y / rect.height))`;
`handleIncreaseSignatureSize` sets `Math.min(signatureSize + 10, MAX_SIG_SIZE)`;
`handleDecreaseSignatureSize` sets `Math.max(signatureSize - 10, MIN_SIG_SIZE)`. -/
def applyPlacementOp (p : SignaturePlacement) : PlacementOp → SignaturePlacement
  | PlacementOp.dragTo clientX clientY rectLeft rectTop rectWidth rectHeight =>
      let x := clientX - rectLeft
      let y := clientY - rectTop
      let relativeX := max 0 (min 1 (x / rectWidth))
      let relativeY := max 0 (min 1 (y / rectHeight))
      { p with posX := relativeX, posY := relativeY }
  | PlacementOp.increaseSize =>
      { p with sizePx := min (p.sizePx + 10) MAX_SIG_SIZE }
  | PlacementOp.decreaseSize =>
      { p with sizePx := max (p.sizePx - 10) MIN_SIG_SIZE }

/-- Placement invariant claimed by the spec. -/
def PlacementInv (p : SignaturePlacement) : Prop :=
  0 ≤ p.posX ∧ p.posX ≤ 1 ∧ 0 ≤ p.posY ∧ p.posY ≤ 1 ∧
    MIN_SIG_SIZE ≤ p.sizePx ∧ p.sizePx ≤ MAX_SIG_SIZE

theorem applyPlacementOp_preserves (p : SignaturePlacement) (op : PlacementOp)
    (h : PlacementInv p) : PlacementInv (applyPlacementOp p op) := by
  obtain ⟨hx0, hx1, hy0, hy1, hs0, hs1⟩ := h
  cases op with
  | dragTo clientX clientY rectLeft rectTop rectWidth rectHeight =>
      refine ⟨le_max_left _ _, ?_, le_max_left _ _, ?_, hs0, hs1⟩ <;>
        exact max_le (by norm_num) (min_le_left _ _)
  | increaseSize =>
      refine ⟨hx0, hx1, hy0, hy1, le_min ?_ ?_, min_le_right _ _⟩
      · linarith
      · norm_num [MIN_SIG_SIZE, MAX_SIG_SIZE]
  | decreaseSize =>
      refine ⟨hx0, hx1, hy0, hy1, le_max_right _ _, max_le ?_ ?_⟩
      · linarith
      · norm_num [MIN_SIG_SIZE, MAX_SIG_SIZE]

theorem foldl_placement_preserves (ops : List PlacementOp) (p : SignaturePlacement)
    (h : PlacementInv p) : PlacementInv (ops.foldl applyPlacementOp p) := by
  induction ops generalizing p with
  | nil => exact h
  | cons op rest ih => exact ih _ (applyPlacementOp_preserves p op h)

/-- C5: after every sequence of placement set-operations (position drags,
size increase/decrease), including ones driven by out-of-range inputs, the
stored placement satisfies `position.x ∈ [0,1]`, `position.y ∈ [0,1]`, and
`sizePx ∈ [MIN_SIG_SIZE, MAX_SIG_SIZE]`: every write clamps its input. -/
theorem placement_invariant_clamped (ops : List PlacementOp) :
    PlacementInv (ops.foldl applyPlacementOp initialPlacement) :=
  foldl_placement_preserves ops initialPlacement
    (by refine ⟨?_, ?_, ?_, ?_, ?_, ?_⟩ <;> norm_num [initialPlacement, MIN_SIG_SIZE, MAX_SIG_SIZE])

/-! ## Rotation normalization (SignaturePreview, `handleRotateMouseDown`) -/

/-- Rotation value handed to `onSignatureRotationChange` by
`handleRotateMouseDown`'s mouse-move, as a function of the computed
`angleDeg`: `angleDeg < 0 ? angleDeg + 360 : angleDeg`. The setter itself
(`setSignatureRotation`) stores the value unchanged, so this is the entire
normalization applied to rotation inputs. -/
def normalizeAngleDeg (angleDeg : ℚ) : ℚ :=
  if angleDeg < 0 then angleDeg + 360 else angleDeg

/-- Statement of claim C6: rotation inputs are normalized so that setting
`x` and setting `x + 360` store the same value, for every `x`. -/
def SetRotationMod360Claim : Prop :=
  ∀ x : ℚ, normalizeAngleDeg x = normalizeAngleDeg (x + 360)

/-- C6 counterexample: the rotation correction is a single negative
wraparound, not a modulo; at `x = 10` the stored values of `setRotation(10)`
and `setRotation(370)` differ (10 versus 370), refuting the claim. -/
theorem rotation_mod360_claim_false : ¬ SetRotationMod360Claim := by
  intro h
  have h10 := h 10
  norm_num [normalizeAngleDeg] at h10

/-- C6 amended: the rotation input correction adds 360 exactly once, and only
to negative inputs; consequently `setRotation(x) = setRotation(x + 360)` holds
precisely when `-360 ≤ x < 0`, and on the rotation handler's actual input
range (`atan2`-derived angles in `(-90, 270]`) the stored value always lies
in `[0, 360)`. -/
theorem rotation_wraparound_characterization (x : ℚ) :
    (normalizeAngleDeg x = normalizeAngleDeg (x + 360) ↔ -360 ≤ x ∧ x < 0) ∧
    (-90 < x → x ≤ 270 → 0 ≤ normalizeAngleDeg x ∧ normalizeAngleDeg x < 360) := by
  constructor
  · constructor
    · intro hc
      unfold normalizeAngleDeg at hc
      split_ifs at hc with h1 h2 h2
      · exfalso; linarith
      · exact ⟨by linarith, h1⟩
      · exfalso; linarith
      · exfalso; linarith
    · rintro ⟨ha, hb⟩
      unfold normalizeAngleDeg
      rw [if_pos hb, if_neg (by linarith : ¬ x + 360 < 0)]
  · intro ha hb
    unfold normalizeAngleDeg
    split_ifs with h1
    · constructor <;> linarith
    · constructor <;> linarith

/-- C6 amended witness: concrete instances of the amended claim at `x = -40`
(wraparound equality holds) and `x = 200` (handler-range output bounds). -/
theorem rotation_wraparound_characterization_witness :
    normalizeAngleDeg (-40) = normalizeAngleDeg ((-40) + 360) ∧
    (0 ≤ normalizeAngleDeg 200 ∧ normalizeAngleDeg 200 < 360) :=
  ⟨(rotation_wraparound_characterization (-40)).1.mpr (by norm_num),
   (rotation_wraparound_characterization 200).2 (by norm_num) (by norm_num)⟩

/-! ## Viewport state (DocumentViewer pagination and zoom) -/

/-- Viewer state touched by the pagination/zoom controls: `pageNum`
(1-based, owned by App, updated through `onPageNumChange`) and `zoomLevel`
(`useState(DEFAULT_ZOOM)`). -/
structure ViewerState where
  pageNum : Nat
  zoomLevel : ℚ
deriving DecidableEq

/-- Initial viewer state: `pageNum` starts at 1 (App `useState(1)`),
`zoomLevel` at `DEFAULT_ZOOM`. -/
def initialViewerState : ViewerState :=
  { pageNum := 1, zoomLevel := DEFAULT_ZOOM }

/-- Pagination and zoom operations of DocumentViewer. -/
inductive ViewerOp
  | previousPage
  | nextPage
  | zoomIn
  | zoomOut
deriving DecidableEq

/-- One viewer operation, mirroring the DocumentViewer handlers:
`goToPreviousPage`: `Math.max(pageNum - 1, 1)`;
`goToNextPage`: `Math.min(pageNum + 1, numPages)`;
`handleZoomIn`: `Math.min(prev + 0.25, MAX_ZOOM)`;
`handleZoomOut`: `Math.max(prev - 0.25, MIN_ZOOM)`. -/
def viewerStep (numPages : Nat) (s : ViewerState) : ViewerOp → ViewerState
  | ViewerOp.previousPage => { s with pageNum := max (s.pageNum - 1) 1 }
  | ViewerOp.nextPage => { s with pageNum := min (s.pageNum + 1) numPages }
  | ViewerOp.zoomIn => { s with zoomLevel := min (s.zoomLevel + 0.25) MAX_ZOOM }
  | ViewerOp.zoomOut => { s with zoomLevel := max (s.zoomLevel - 0.25) MIN_ZOOM }

/-- Viewport invariant claimed by the spec. -/
def ViewerInv (numPages : Nat) (s : ViewerState) : Prop :=
  1 ≤ s.pageNum ∧ s.pageNum ≤ numPages ∧
    MIN_ZOOM ≤ s.zoomLevel ∧ s.zoomLevel ≤ MAX_ZOOM

theorem viewerStep_preserves (numPages : Nat) (h0 : 1 ≤ numPages)
    (s : ViewerState) (op : ViewerOp) (h : ViewerInv numPages s) :
    ViewerInv numPages (viewerStep numPages s op) := by
  obtain ⟨hp1, hp2, hz1, hz2⟩ := h
  cases op with
  | previousPage =>
      exact ⟨le_max_right _ _, max_le (by omega) h0, hz1, hz2⟩
  | nextPage =>
      exact ⟨le_min (by omega) h0, min_le_right _ _, hz1, hz2⟩
  | zoomIn =>
      refine ⟨hp1, hp2, le_min ?_ ?_, min_le_right _ _⟩
      · linarith
      · simp [MIN_ZOOM, MAX_ZOOM]; norm_num
  | zoomOut =>
      refine ⟨hp1, hp2, le_max_right _ _, max_le ?_ ?_⟩
      · linarith
      · simp [MIN_ZOOM, MAX_ZOOM]; norm_num

theorem foldl_viewer_preserves (numPages : Nat) (h0 : 1 ≤ numPages)
    (ops : List ViewerOp) (s : ViewerState) (h : ViewerInv numPages s) :
    ViewerInv numPages (ops.foldl (viewerStep numPages) s) := by
  induction ops generalizing s with
  | nil => exact h
  | cons op rest ih => exact ih _ (viewerStep_preserves numPages h0 s op h)

/-- C8: after every sequence of zoom-in/zoom-out and next-page/previous-page
operations on a document with at least one page, the viewer state satisfies
`zoomLevel ∈ [MIN_ZOOM, MAX_ZOOM]` and `pageNum ∈ [1, numPages]`: each step
clamps at the bounds. -/
theorem viewer_invariant_bounds (numPages : Nat) (h0 : 1 ≤ numPages)
    (ops : List ViewerOp) :
    ViewerInv numPages (ops.foldl (viewerStep numPages) initialViewerState) := by
  refine foldl_viewer_preserves numPages h0 ops initialViewerState ?_
  refine ⟨le_refl _, h0, ?_, ?_⟩ <;>
    norm_num [initialViewerState, MIN_ZOOM, MAX_ZOOM, DEFAULT_ZOOM]

/-- C8 witness: a concrete run on a 2-page document stays inside the bounds. -/
theorem viewer_invariant_bounds_witness :
    1 ≤ 2 ∧
    ViewerInv 2 ([ViewerOp.nextPage, ViewerOp.zoomOut, ViewerOp.zoomIn,
        ViewerOp.previousPage].foldl (viewerStep 2) initialViewerState) :=
  ⟨by norm_num, viewer_invariant_bounds 2 (by norm_num)
    [ViewerOp.nextPage, ViewerOp.zoomOut, ViewerOp.zoomIn, ViewerOp.previousPage]⟩

/-! ## Upload validation (FileUpload component) -/

/-- Source: `const ALLOWED_MIME_TYPES = [...]`. -/
def ALLOWED_MIME_TYPES : List String :=
  ["application/pdf",
   "application/msword",
   "application/vnd.openxmlformats-officedocument.wordprocessingml.document",
   "application/vnd.ms-excel",
   "application/vnd.openxmlformats-officedocument.spreadsheetml.sheet",
   "text/csv"]

/-- Source: `const ALLOWED_EXTENSIONS = ['.pdf', '.doc', '.docx', '.xls', '.xlsx', '.csv']`. -/
def ALLOWED_EXTENSIONS : List String :=
  [".pdf", ".doc", ".docx", ".xls", ".xlsx", ".csv"]

/-- JS-style split at the dot character, over the name's character list:
splitting the empty string yields one empty fragment, mirroring JS
String.split, which never returns an empty array for a nonempty pattern. -/
def splitDots : List Char → List (List Char)
  | [] => [[]]
  | c :: cs =>
    let rest := splitDots cs
    if c = '.' then [] :: rest
    else
      match rest with
      | [] => [[c]]
      | w :: ws => (c :: w) :: ws

/-- Extension computed by `validateFile`: a dot followed by the lowercased
last fragment of the name split at dots (JS `pop()` of the split; for a name
with no dot this is the whole name). -/
def fileExtensionOf (name : String) : String :=
  "." ++ String.mk (((splitDots name.data).getLastD []).map Char.toLower)

/-- FileUpload's `validateFile`: returns `none` (valid) when the declared
MIME type is allowed OR the computed extension is allowed, otherwise the
error message. -/
def validateFile (fileType name : String) : Option String :=
  if fileType ∈ ALLOWED_MIME_TYPES ∨ fileExtensionOf name ∈ ALLOWED_EXTENSIONS then
    none
  else
    some "Unsupported file type. Please upload a PDF, Word, Excel, or CSV file."

/-- C9: a file is accepted by `validateFile` if and only if its declared MIME
type is in the allowed list OR its lowercased filename extension is in the
allowed extension list (the checks are disjunctive); in particular a file
with disallowed MIME type `image/png` but allowed extension `.pdf` (name
`Scan.PDF`, lowercased) is accepted. -/
theorem validate_file_disjunctive :
    (∀ fileType name : String,
      validateFile fileType name = none ↔
        fileType ∈ ALLOWED_MIME_TYPES ∨ fileExtensionOf name ∈ ALLOWED_EXTENSIONS) ∧
    validateFile "image/png" "Scan.PDF" = none ∧
    "image/png" ∉ ALLOWED_MIME_TYPES := by
  refine ⟨fun fileType name => ?_, by decide, by decide⟩
  unfold validateFile
  split_ifs with h
  · simp [h]
  · simp [h]

/-! ## App session state (App component) -/

/-- Top-level App state: the `useState` hooks of the App component. A file
and a signature are modelled by their identifying string (name, data URL);
only presence and identity matter to the claims. -/
structure AppState where
  file : Option String
  signature : Option String
  isModalOpen : Bool
  signatureSize : ℚ
  signatureRotation : ℚ
  signaturePosition : ℚ × ℚ
  pageNum : Nat
deriving DecidableEq

/-- App `handleFileSelect`: stores the selected file, clears the signature,
and resets the page to 1; no other state is touched. -/
def handleFileSelect (s : AppState) (selectedFile : String) : AppState :=
  { s with file := some selectedFile, signature := none, pageNum := 1 }

/-- App `handleReset`: clears the file and signature, closes the modal, and
restores size 150, rotation 0, position (0.85, 0.8), page 1. -/
def handleReset (s : AppState) : AppState :=
  { s with
    file := none
    signature := none
    isModalOpen := false
    signatureSize := 150
    signatureRotation := 0
    signaturePosition := (0.85, 0.8)
    pageNum := 1 }

/-- C10: selecting a new document clears the signature and resets the page
index to 1 while leaving the placement (position, size, rotation) unchanged;
the full reset operation restores the placement defaults (position
(0.85, 0.8), size 150, rotation 0). -/
theorem file_select_frame_and_reset (s : AppState) (f : String) :
    (handleFileSelect s f).file = some f ∧
    (handleFileSelect s f).signature = none ∧
    (handleFileSelect s f).pageNum = 1 ∧
    (handleFileSelect s f).signaturePosition = s.signaturePosition ∧
    (handleFileSelect s f).signatureSize = s.signatureSize ∧
    (handleFileSelect s f).signatureRotation = s.signatureRotation ∧
    (handleReset s).signaturePosition = (0.85, 0.8) ∧
    (handleReset s).signatureSize = 150 ∧
    (handleReset s).signatureRotation = 0 :=
  ⟨rfl, rfl, rfl, rfl, rfl, rfl, rfl, rfl, rfl⟩

/-! ## The download/export pipeline (App `handleDownload`)

The fallible awaited steps of the PDF branch (`PDFDocument.load`, the
signature fetch plus `embedPng`, `pdfDoc.save`) are modelled by Boolean
oracles in an environment record: a `false` oracle stands for the step
throwing, which transfers control to the single `catch` block (one
`alert`). The raster branch's only fallible step in the source control flow
is `canvas.getContext('2d')` returning null, which hits an early `return`
inside the `try` (no alert, no output). -/

/-- Document media type as branched on by `handleDownload`
(`file.type === 'application/pdf'`). -/
inductive DocType
  | pdf
  | other
deriving DecidableEq

/-- Environment for the PDF branch: outcome of each awaited step, the
embedded image's intrinsic size, the page count of the loaded document, and
the target page's physical size. -/
structure PdfEnv where
  loadOk : Bool
  embedOk : Bool
  imgWidth : ℚ
  imgHeight : ℚ
  numPages : Nat
  pageWidth : ℚ
  pageHeight : ℚ
  saveOk : Bool
deriving DecidableEq

/-- Environment for the raster branch: context availability and the loaded
signature image's intrinsic size. -/
structure RasterEnv where
  ctxOk : Bool
  imgWidth : ℚ
  imgHeight : ℚ
deriving DecidableEq

/-- Observable outcome of one `handleDownload` run: how many error alerts
were shown, which files were handed to the save collaborator (the
`link.click()` downloads), and the signature draws performed (target page
index paired with the draw for the PDF branch). -/
structure DownloadOutcome where
  alerts : Nat
  saved : List String
  pdfDraws : List (Nat × PdfDrawOp)
  rasterDraws : List RasterDraw
deriving DecidableEq

/-- Outcome of the `catch` block: one alert, nothing saved. -/
def alertOutcome : DownloadOutcome :=
  { alerts := 0 + 1, saved := [], pdfDraws := [], rasterDraws := [] }

/-- Outcome of an early `return`: no alert, nothing saved. -/
def silentOutcome : DownloadOutcome :=
  { alerts := 0, saved := [], pdfDraws := [], rasterDraws := [] }

/-- JS array indexing `pages[i]`: `undefined` (`none`) outside `[0, len)`. -/
def jsArrayGet (len : Nat) (i : Int) : Option Nat :=
  if 0 ≤ i ∧ i < (len : Int) then some i.toNat else none

/-- Target-page selection of `handleDownload`:
`const targetPage = pages[pageNum - 1] || pages[0]` (a PDF page object is
never falsy, so the fallback fires exactly when the index is out of range). -/
def selectTargetPage (numPages : Nat) (pageNum : Int) : Option Nat :=
  (jsArrayGet numPages (pageNum - 1)).orElse (fun _ => jsArrayGet numPages 0)

/-- Source: `if (!targetPage) throw new Error("Target page for signature not
found.")`. -/
def exportTargetPage (numPages : Nat) (pageNum : Int) : Except String Nat :=
  match selectTargetPage numPages pageNum with
  | some idx => Except.ok idx
  | none => Except.error "Target page for signature not found."

/-- Raster-branch output basename:
`const extension = file.name.split('.').pop();`
`const basename = extension ? file.name.slice(0, -(extension.length + 1)) : file.name;`. -/
def rasterBasename (name : String) : String :=
  let extension := (splitDots name.data).getLastD []
  if extension.isEmpty then name
  else String.mk (name.data.take (name.data.length - (extension.length + 1)))

/-- App `handleDownload`, as a function of the session state (file,
signature presence, placement) and the step oracles. Mirrors the source
control flow: the missing-file/missing-signature guard returns silently
before the `try`; inside the `try`, the branch on `file.type`; any thrown
step lands in the single `catch` (an alert); the file is handed to the save
collaborator only after every prior step succeeded. -/
def handleDownload (file : Option (DocType × String)) (signature : Bool)
    (signatureSize signatureRotation : ℚ) (signaturePosition : ℚ × ℚ)
    (pageNum : Int) (penv : PdfEnv) (renv : RasterEnv) : DownloadOutcome :=
  match file, signature with
  | none, _ => silentOutcome
  | some _, false => silentOutcome
  | some (dt, name), true =>
    if dt = DocType.pdf then
      if penv.loadOk then
        if penv.embedOk then
          match exportTargetPage penv.numPages pageNum with
          | Except.ok idx =>
            let d := pdfSignatureDraw penv.pageWidth penv.pageHeight
              penv.imgWidth penv.imgHeight signatureSize signaturePosition
              signatureRotation
            if penv.saveOk then
              { alerts := 0
                saved := ["signed-" ++ name]
                pdfDraws := [(idx, d)]
                rasterDraws := [] }
            else
              { alerts := 0 + 1
                saved := []
                pdfDraws := [(idx, d)]
                rasterDraws := [] }
          | Except.error _ => alertOutcome
        else alertOutcome
      else alertOutcome
    else
      if renv.ctxOk then
        let d := rasterSignatureDraw renv.imgWidth renv.imgHeight
          signatureSize signaturePosition signatureRotation
        { alerts := 0
          saved := ["signed-" ++ rasterBasename name ++ ".png"]
          pdfDraws := []
          rasterDraws := [d] }
      else silentOutcome

theorem exportTargetPage_out_of_range (numPages : Nat) (pageNum : Int)
    (h1 : 1 ≤ numPages) (h2 : pageNum < 1 ∨ (numPages : Int) < pageNum) :
    exportTargetPage numPages pageNum = Except.ok 0 := by
  have hnone : jsArrayGet numPages (pageNum - 1) = none := by
    unfold jsArrayGet
    rw [if_neg]
    rintro ⟨ha, hb⟩
    rcases h2 with h2 | h2 <;> omega
  have hzero : jsArrayGet numPages 0 = some 0 := by
    unfold jsArrayGet
    rw [if_pos ⟨le_refl 0, by exact_mod_cast h1⟩]
    rfl
  unfold exportTargetPage selectTargetPage
  rw [hnone, hzero]
  rfl

/-- C3: when the requested page index is outside `[1, pageCount]` (and the
document has at least one page), the PDF export still succeeds — no alert,
the output file is saved — and the signature is drawn on page 1 (index 0). -/
theorem out_of_range_page_falls_back_to_first (name : String)
    (signatureSize signatureRotation : ℚ) (signaturePosition : ℚ × ℚ)
    (pageNum : Int) (penv : PdfEnv) (renv : RasterEnv)
    (hload : penv.loadOk = true) (hembed : penv.embedOk = true)
    (hsave : penv.saveOk = true) (hpages : 1 ≤ penv.numPages)
    (hrange : pageNum < 1 ∨ (penv.numPages : Int) < pageNum) :
    (handleDownload (some (DocType.pdf, name)) true signatureSize
        signatureRotation signaturePosition pageNum penv renv).alerts = 0 ∧
    (handleDownload (some (DocType.pdf, name)) true signatureSize
        signatureRotation signaturePosition pageNum penv renv).saved
      = ["signed-" ++ name] ∧
    (handleDownload (some (DocType.pdf, name)) true signatureSize
        signatureRotation signaturePosition pageNum penv renv).pdfDraws.map
        Prod.fst = [0] := by
  have hexp := exportTargetPage_out_of_range penv.numPages pageNum hpages hrange
  simp [handleDownload, hload, hembed, hsave, hexp]

/-- Concrete all-success PDF environment. -/
def okPdfEnv : PdfEnv :=
  { loadOk := true
    embedOk := true
    imgWidth := 400
    imgHeight := 200
    numPages := 3
    pageWidth := 612
    pageHeight := 792
    saveOk := true }

/-- Concrete all-success raster environment. -/
def okRasterEnv : RasterEnv :=
  { ctxOk := true, imgWidth := 400, imgHeight := 200 }

/-- C3 witness: exporting a 3-page document with requested page 99 succeeds
and targets page 1. -/
theorem out_of_range_page_falls_back_to_first_witness :
    (handleDownload (some (DocType.pdf, "contract.pdf")) true 150 0
        (0.85, 0.8) 99 okPdfEnv okRasterEnv).alerts = 0 ∧
    (handleDownload (some (DocType.pdf, "contract.pdf")) true 150 0
        (0.85, 0.8) 99 okPdfEnv okRasterEnv).saved
      = ["signed-" ++ "contract.pdf"] ∧
    (handleDownload (some (DocType.pdf, "contract.pdf")) true 150 0
        (0.85, 0.8) 99 okPdfEnv okRasterEnv).pdfDraws.map Prod.fst = [0] :=
  out_of_range_page_falls_back_to_first "contract.pdf" 150 0 (0.85, 0.8) 99
    okPdfEnv okRasterEnv rfl rfl rfl (by norm_num [okPdfEnv])
    (Or.inr (by norm_num [okPdfEnv]))

/-- Assertion of claim C7 at one outcome: the failure is surfaced exactly
once and no output file is written. -/
def SurfacedOnceNoOutput (r : DownloadOutcome) : Prop :=
  r.alerts = 1 ∧ r.saved = []

/-- C7 counterexample: an export attempt with a missing signature is a
failing export per the claim, but the code's guard returns silently — no
error is surfaced (zero alerts), refuting "an ExportError outcome is
surfaced once to the caller" for this failure class. -/
theorem missing_signature_silent_abort :
    ¬ SurfacedOnceNoOutput (handleDownload (some (DocType.pdf, "contract.pdf"))
        false 150 0 (0.85, 0.8) 1 okPdfEnv okRasterEnv) := by
  rintro ⟨h1, _⟩
  have h0 : (handleDownload (some (DocType.pdf, "contract.pdf"))
      false 150 0 (0.85, 0.8) 1 okPdfEnv okRasterEnv).alerts = 0 := rfl
  rw [h0] at h1
  exact absurd h1 (by norm_num)

theorem exportTargetPage_no_pages (pageNum : Int) :
    exportTargetPage 0 pageNum
      = Except.error "Target page for signature not found." := by
  have hnone : ∀ i : Int, jsArrayGet 0 i = none := by
    intro i
    unfold jsArrayGet
    rw [if_neg]
    rintro ⟨ha, hb⟩
    omega
  unfold exportTargetPage selectTargetPage
  rw [hnone, hnone]
  rfl

/-- C7 amended: every failure thrown inside the PDF export — load error,
embed error, missing target page, or serialize/save error — is surfaced
exactly once (a single alert) with no output file handed to the save
collaborator and no retry; the claim's missing-signature (and missing-file)
case instead aborts silently before the `try`, surfacing nothing. -/
theorem pdf_export_failures_surface_once_no_output (name : String)
    (signatureSize signatureRotation : ℚ) (signaturePosition : ℚ × ℚ)
    (pageNum : Int) (penv : PdfEnv) (renv : RasterEnv)
    (hfail : penv.loadOk = false ∨ penv.embedOk = false ∨ penv.numPages = 0 ∨
      penv.saveOk = false) :
    SurfacedOnceNoOutput (handleDownload (some (DocType.pdf, name)) true
      signatureSize signatureRotation signaturePosition pageNum penv renv) ∧
    (handleDownload (some (DocType.pdf, name)) false signatureSize
        signatureRotation signaturePosition pageNum penv renv).alerts = 0 := by
  refine ⟨?_, rfl⟩
  unfold SurfacedOnceNoOutput
  rcases hfail with h | h | h | h
  · simp [handleDownload, h, alertOutcome]
  · cases hl : penv.loadOk
    · simp [handleDownload, hl, alertOutcome]
    · simp [handleDownload, h, hl, alertOutcome]
  · cases hl : penv.loadOk
    · simp [handleDownload, hl, alertOutcome]
    · cases he : penv.embedOk
      · simp [handleDownload, hl, he, alertOutcome]
      · simp [handleDownload, h, hl, he, alertOutcome, exportTargetPage_no_pages]
  · cases hl : penv.loadOk
    · simp [handleDownload, hl, alertOutcome]
    · cases he : penv.embedOk
      · simp [handleDownload, hl, he, alertOutcome]
      · cases hp : exportTargetPage penv.numPages pageNum
        · simp [handleDownload, hl, he, hp, alertOutcome]
        · simp [handleDownload, h, hl, he, hp, alertOutcome]

/-- Concrete PDF environment whose save step throws. -/
def saveFailPdfEnv : PdfEnv :=
  { loadOk := true
    embedOk := true
    imgWidth := 400
    imgHeight := 200
    numPages := 3
    pageWidth := 612
    pageHeight := 792
    saveOk := false }

/-- C7 amended witness: a concrete export whose serialize step throws
surfaces exactly one alert and saves nothing, and the same export invoked
without a signature surfaces nothing. -/
theorem pdf_export_failures_surface_once_no_output_witness :
    SurfacedOnceNoOutput (handleDownload (some (DocType.pdf, "contract.pdf"))
      true 150 0 (0.85, 0.8) 1 saveFailPdfEnv okRasterEnv) ∧
    (handleDownload (some (DocType.pdf, "contract.pdf")) false 150 0
        (0.85, 0.8) 1 saveFailPdfEnv okRasterEnv).alerts = 0 :=
  pdf_export_failures_surface_once_no_output "contract.pdf" 150 0 (0.85, 0.8)
    1 saveFailPdfEnv okRasterEnv (Or.inr (Or.inr (Or.inr rfl)))

/-! ## The render pipeline (DocumentViewer `renderPage` effect)

Each page/zoom change re-runs the effect, invoking the async `renderPage`.
One invocation has three atomic segments separated by its `await` points:

* start (the effect fires): `if (renderTaskRef.current) await
  renderTaskRef.current.cancel()` — the task currently in `renderTaskRef`
  (if any) is canceled — then the invocation suspends at
  `await pdfDoc.getPage(pageNumber)`;
* resume (`getPage` resolved): the canvas is sized, `page.render` starts and
  the new task is registered (`renderTaskRef.current = task`), then the
  invocation suspends at `await task.promise`;
* complete (the promise settles): a canceled task rejects with
  `RenderingCancelledException`, which is caught and discarded; otherwise
  the render outcome has been applied to the canvas and
  `renderTaskRef.current = null`.

Invocations are identified by their generation number, in request order;
the cooperative scheduler may interleave the segments of distinct
invocations arbitrarily (JS promise resolution order is not specified
across distinct `getPage`/render calls). -/

/-- Progress of one `renderPage` invocation. -/
inductive RenderPhase
  | idle
  | fetchingPage
  | rendering
  | done
deriving DecidableEq

/-- Scheduler events: the three atomic segments of a `renderPage`
invocation, tagged with its generation. -/
inductive RenderEv
  | start (g : Nat)
  | resume (g : Nat)
  | complete (g : Nat)
deriving DecidableEq

/-- Global state of the render pipeline: the number of requests issued so
far, each invocation's phase, the registered live task (`renderTaskRef`),
the set of generations whose task was canceled, and the render outcomes
applied to the canvas, most recent first. -/
structure RenderModel where
  nextGen : Nat
  phase : Nat → RenderPhase
  renderTaskRef : Option Nat
  canceled : List Nat
  applied : List Nat

/-- Initial render pipeline state. -/
def initRenderModel : RenderModel :=
  { nextGen := 0
    phase := fun _ => RenderPhase.idle
    renderTaskRef := none
    canceled := []
    applied := [] }

/-- One scheduler step (`none` when the event's precondition fails):
`start g` requires `g` to be the next generation (requests are issued in
order), cancels the registered task if any, and suspends `g` at `getPage`;
`resume g` registers `g`'s render task in `renderTaskRef`; `complete g`
discards the outcome of a canceled task (the caught
`RenderingCancelledException` path, which leaves `renderTaskRef` as is) and
otherwise applies the outcome to the canvas and nulls `renderTaskRef`. -/
def renderStep (s : RenderModel) : RenderEv → Option RenderModel
  | RenderEv.start g =>
      if g = s.nextGen then
        some { s with
          nextGen := g + 1
          phase := fun n => if n = g then RenderPhase.fetchingPage else s.phase n
          canceled := s.renderTaskRef.toList ++ s.canceled }
      else none
  | RenderEv.resume g =>
      if s.phase g = RenderPhase.fetchingPage then
        some { s with
          phase := fun n => if n = g then RenderPhase.rendering else s.phase n
          renderTaskRef := some g }
      else none
  | RenderEv.complete g =>
      if s.phase g = RenderPhase.rendering then
        if g ∈ s.canceled then
          some { s with
            phase := fun n => if n = g then RenderPhase.done else s.phase n }
        else
          some { s with
            phase := fun n => if n = g then RenderPhase.done else s.phase n
            renderTaskRef := none
            applied := g :: s.applied }
      else none

/-- Run a list of scheduler events from a state, failing on a precondition
violation. -/
def runRenderFrom : RenderModel → List RenderEv → Option RenderModel
  | s, [] => some s
  | s, e :: rest =>
      match renderStep s e with
      | some s' => runRenderFrom s' rest
      | none => none

/-- Run a list of scheduler events from the initial state. -/
def runRender (evs : List RenderEv) : Option RenderModel :=
  runRenderFrom initRenderModel evs

/-- Every issued request has run to completion. -/
def allRequestsDone (s : RenderModel) : Prop :=
  ∀ g, g < s.nextGen → s.phase g = RenderPhase.done

/-- Statement of claim C2: only the most recent request's result is ever
the one applied to the visible surface — in every execution in which all
issued requests have completed, the outcome showing on the canvas (the most
recently applied one) is the most recent request's, stale renders having
been discarded by cancellation regardless of completion order. -/
def LatestRequestWinsClaim : Prop :=
  ∀ evs s, runRender evs = some s → allRequestsDone s → 0 < s.nextGen →
    s.applied.head? = some (s.nextGen - 1)

/-- Interleaving refuting claim C2: request 0 starts and suspends at
`getPage`; request 1 starts (nothing is registered yet, so nothing is
canceled), renders, and completes; then request 0's `getPage` resolves, its
render is registered and completes, and its stale outcome is applied to the
canvas after the newer one. -/
def staleWinsTrace : List RenderEv :=
  [RenderEv.start 0, RenderEv.start 1, RenderEv.resume 1, RenderEv.complete 1,
   RenderEv.resume 0, RenderEv.complete 0]

/-- C2 counterexample: the claim is false on the code. The cancellation in
`renderPage` only reaches the task registered in `renderTaskRef`, and a
request still awaiting `getPage` has registered nothing, so a newer request
cancels nothing; in the `staleWinsTrace` interleaving both outcomes are
applied and the stale request 0 ends up on the canvas (`applied.head?` is
generation 0, not the most recent generation 1). There is no request
identity or sequence comparison anywhere in `renderPage`. -/
theorem render_latest_wins_claim_false : ¬ LatestRequestWinsClaim := by
  intro h
  cases hS : runRender staleWinsTrace with
  | none =>
      have hsome : (runRender staleWinsTrace).isSome = true := rfl
      rw [hS] at hsome
      exact Bool.noConfusion hsome
  | some s =>
      have hphase : (runRender staleWinsTrace).map
          (fun t => (t.phase 0, t.phase 1))
          = some (RenderPhase.done, RenderPhase.done) := rfl
      have hgen : (runRender staleWinsTrace).map RenderModel.nextGen
          = some 2 := rfl
      have happ : (runRender staleWinsTrace).map RenderModel.applied
          = some [0, 1] := rfl
      rw [hS] at hphase hgen happ
      simp at hphase hgen happ
      have hdone : allRequestsDone s := by
        intro g hg
        rw [hgen] at hg
        interval_cases g
        · exact hphase.1
        · exact hphase.2
      have hc := h staleWinsTrace s hS hdone (by rw [hgen]; norm_num)
      rw [happ, hgen] at hc
      simp at hc

/-- Safety invariant of the render pipeline: an applied generation was never
canceled, the registered task is never an applied generation, applied
generations are done, and unissued generations are idle. -/
def RenderInv (s : RenderModel) : Prop :=
  (∀ g ∈ s.applied, g ∉ s.canceled) ∧
  (∀ g, s.renderTaskRef = some g → g ∉ s.applied) ∧
  (∀ g ∈ s.applied, s.phase g = RenderPhase.done) ∧
  (∀ g, s.nextGen ≤ g → s.phase g = RenderPhase.idle)

theorem renderStep_inv (s : RenderModel) (e : RenderEv) (s' : RenderModel)
    (hinv : RenderInv s) (hstep : renderStep s e = some s') : RenderInv s' := by
  obtain ⟨ha, hb, hc, hd⟩ := hinv
  cases e with
  | start g =>
      simp only [renderStep] at hstep
      split_ifs at hstep with hg
      · obtain rfl := Option.some.inj hstep
        refine ⟨?_, ?_, ?_, ?_⟩
        · intro x hx
          have hx' : x ∈ s.applied := hx
          show x ∉ s.renderTaskRef.toList ++ s.canceled
          intro hmem
          rcases List.mem_append.mp hmem with hm | hm
          · exact hb x (Option.mem_def.mp (Option.mem_toList.mp hm)) hx'
          · exact ha x hx' hm
        · intro x hx
          have hx0 : s.renderTaskRef = some x := hx
          exact hb x hx0
        · intro x hx
          have hx' : x ∈ s.applied := hx
          have hxg : x ≠ g := by
            intro hEq
            have h1 := hc x hx'
            have h2 := hd g (le_of_eq hg.symm)
            rw [hEq, h2] at h1
            exact RenderPhase.noConfusion h1
          show (if x = g then RenderPhase.fetchingPage else s.phase x)
            = RenderPhase.done
          rw [if_neg hxg]
          exact hc x hx'
        · intro x hx
          have hx' : g + 1 ≤ x := hx
          show (if x = g then RenderPhase.fetchingPage else s.phase x)
            = RenderPhase.idle
          rw [if_neg (by omega : ¬ x = g)]
          refine hd x ?_
          omega
  | resume g =>
      simp only [renderStep] at hstep
      split_ifs at hstep with hg
      · obtain rfl := Option.some.inj hstep
        refine ⟨?_, ?_, ?_, ?_⟩
        · intro x hx
          exact ha x hx
        · intro x hx
          have hx0 : (some g : Option Nat) = some x := hx
          obtain rfl := Option.some.inj hx0
          intro hmem
          have hmem' : g ∈ s.applied := hmem
          have hPh := hc g hmem'
          rw [hg] at hPh
          exact RenderPhase.noConfusion hPh
        · intro x hx
          have hx' : x ∈ s.applied := hx
          have hxg : x ≠ g := by
            intro hEq
            have hPh := hc x hx'
            rw [hEq, hg] at hPh
            exact RenderPhase.noConfusion hPh
          show (if x = g then RenderPhase.rendering else s.phase x)
            = RenderPhase.done
          rw [if_neg hxg]
          exact hc x hx'
        · intro x hx
          have hx' : s.nextGen ≤ x := hx
          have hxg : x ≠ g := by
            intro hEq
            have hPh := hd x hx'
            rw [hEq, hg] at hPh
            exact RenderPhase.noConfusion hPh
          show (if x = g then RenderPhase.rendering else s.phase x)
            = RenderPhase.idle
          rw [if_neg hxg]
          exact hd x hx'
  | complete g =>
      simp only [renderStep] at hstep
      split_ifs at hstep with hg hmem
      · obtain rfl := Option.some.inj hstep
        refine ⟨?_, ?_, ?_, ?_⟩
        · intro x hx
          exact ha x hx
        · intro x hx
          exact hb x hx
        · intro x hx
          have hx' : x ∈ s.applied := hx
          show (if x = g then RenderPhase.done else s.phase x)
            = RenderPhase.done
          by_cases hxg : x = g
          · rw [if_pos hxg]
          · rw [if_neg hxg]
            exact hc x hx'
        · intro x hx
          have hx' : s.nextGen ≤ x := hx
          have hxg : x ≠ g := by
            intro hEq
            have hPh := hd x hx'
            rw [hEq, hg] at hPh
            exact RenderPhase.noConfusion hPh
          show (if x = g then RenderPhase.done else s.phase x)
            = RenderPhase.idle
          rw [if_neg hxg]
          exact hd x hx'
      · obtain rfl := Option.some.inj hstep
        refine ⟨?_, ?_, ?_, ?_⟩
        · intro x hx
          have hx' : x ∈ g :: s.applied := hx
          show x ∉ s.canceled
          rcases List.mem_cons.mp hx' with hEq | hIn
          · subst hEq
            exact hmem
          · exact ha x hIn
        · intro x hx
          have hx0 : (none : Option Nat) = some x := hx
          exact Option.noConfusion hx0
        · intro x hx
          have hx' : x ∈ g :: s.applied := hx
          show (if x = g then RenderPhase.done else s.phase x)
            = RenderPhase.done
          by_cases hxg : x = g
          · rw [if_pos hxg]
          · rw [if_neg hxg]
            rcases List.mem_cons.mp hx' with hEq | hIn
            · exact absurd hEq hxg
            · exact hc x hIn
        · intro x hx
          have hx' : s.nextGen ≤ x := hx
          have hxg : x ≠ g := by
            intro hEq
            have hPh := hd x hx'
            rw [hEq, hg] at hPh
            exact RenderPhase.noConfusion hPh
          show (if x = g then RenderPhase.done else s.phase x)
            = RenderPhase.idle
          rw [if_neg hxg]
          exact hd x hx'

theorem runRenderFrom_inv (evs : List RenderEv) (s s' : RenderModel)
    (hinv : RenderInv s) (hrun : runRenderFrom s evs = some s') :
    RenderInv s' := by
  induction evs generalizing s with
  | nil =>
      unfold runRenderFrom at hrun
      obtain rfl := Option.some.inj hrun
      exact hinv
  | cons e rest ih =>
      unfold runRenderFrom at hrun
      cases hstep : renderStep s e with
      | none => rw [hstep] at hrun; exact Option.noConfusion hrun
      | some s1 =>
          rw [hstep] at hrun
          exact ih s1 (renderStep_inv s e s1 hinv hstep) hrun

/-- C2 amended: before a new `renderPage` invocation starts its render, the
task registered in `renderTaskRef` (if any) is canceled, and the outcome of
a canceled render task is never applied to the visible surface. The code
resolves the race by this cancellation alone — not by request identity or
sequence comparison — and a request that has not yet registered its task
(still awaiting `getPage`) when a newer request starts escapes cancellation,
so a stale outcome can still be applied after the newer one (see the
counterexample). -/
theorem canceled_render_never_applied (evs : List RenderEv) (s : RenderModel)
    (hrun : runRender evs = some s) (g : Nat) (hg : g ∈ s.canceled) :
    g ∉ s.applied := by
  have hinv0 : RenderInv initRenderModel := by
    refine ⟨?_, ?_, ?_, ?_⟩
    · intro x hx
      exact absurd hx (List.not_mem_nil x)
    · intro x hx
      exact Option.noConfusion hx
    · intro x hx
      exact absurd hx (List.not_mem_nil x)
    · intro x hx
      rfl
  have hinv := runRenderFrom_inv evs initRenderModel s hinv0 hrun
  intro happ
  exact hinv.1 g happ hg

/-- Interleaving in which request 0's registered render is canceled by
request 1's start and its rejected promise is discarded: the cancellation
mechanism works whenever the stale task was registered before the newer
request started. -/
def canceledDiscardTrace : List RenderEv :=
  [RenderEv.start 0, RenderEv.resume 0, RenderEv.start 1, RenderEv.complete 0,
   RenderEv.resume 1, RenderEv.complete 1]

/-- C2 amended witness: in the `canceledDiscardTrace` run, generation 0 is
canceled and its outcome is never applied. -/
theorem canceled_render_never_applied_witness :
    ∃ s, runRender canceledDiscardTrace = some s ∧ 0 ∈ s.canceled ∧
      0 ∉ s.applied := by
  cases hS : runRender canceledDiscardTrace with
  | none =>
      have hsome : (runRender canceledDiscardTrace).isSome = true := rfl
      rw [hS] at hsome
      exact Bool.noConfusion hsome
  | some s =>
      have hcanc : (runRender canceledDiscardTrace).map RenderModel.canceled
          = some [0] := rfl
      rw [hS] at hcanc
      simp at hcanc
      have hmem : 0 ∈ s.canceled := by
        rw [hcanc]
        exact List.mem_singleton.mpr rfl
      exact ⟨s, rfl, hmem,
        canceled_render_never_applied canceledDiscardTrace s hS 0 hmem⟩

end DocSign
